import Mathlib

/-!
Verification of the parameter-sweep harness in `batch_run.py`.

The harness enumerates a grid of `(lambda, tau)` parameter pairs, runs an
external benchmark executable once per pair on a thread pool, and appends each
successful invocation's single-line CSV output as one row of a results file.

The embedding below follows the source:

* `ChildBehavior` models what the external process does for one invocation
  (how long it runs, its exit code, its stdout/stderr, or a launch failure).
* `subprocessRun` models `subprocess.run(cmd, check=True, capture_output=True,
  text=True, timeout=3000)`: it either returns a completed process or raises a
  Python exception (`CalledProcessError`, `TimeoutExpired`, or an `OSError`
  style launch error), modelled through `Except`.
* `run_benchmark` models the function of the same name: the `try` body plus the
  two `except` clauses (`subprocess.CalledProcessError` first, then the generic
  `Exception`), returning the captured stdout or `none` together with the
  diagnostic line printed.
* `run_benchmark_exc` is the same function at the exception level, recording
  which errors the two handlers catch; an uncaught error would propagate in the
  `Except.error` case.
* `lambdas`, `taus`, `param_combinations`, `header` model the corresponding
  data of `main`; `gridGen` is the nested loop that builds
  `param_combinations`, kept generic in the two dimension lists.
* `rowOf` models the body of the collection loop for one future:
  `if result: writer.writerow(result.strip().split(','))`.
* `loopTrace` models the collection loop as an event trace: for each future in
  submission order a `resolve` event (the blocking `future.result()` call),
  then, when a row is written, a `writeRow` event followed by a `flush` event
  (`f.flush()`).
-/

/-- ASCII whitespace as recognised by Python's `str.strip()`:
space, tab, newline, carriage return, vertical tab, form feed. -/
def pyIsSpace (c : Char) : Bool :=
  c = ' ' || c = '\t' || c = '\n' || c = '\r' || c = Char.ofNat 11 || c = Char.ofNat 12

/-- Python `s.strip()`: remove leading and trailing whitespace. -/
def pyStrip (s : String) : String :=
  String.mk (((s.data.dropWhile pyIsSpace).reverse.dropWhile pyIsSpace).reverse)

/-- Auxiliary for `pySplit`: split a character list at commas, accumulating the
current field in reverse.  Mirrors Python `str.split(',')`, in particular
`pySplitAux [] [] = [[]]` just as `"".split(',') == ['']`. -/
def pySplitAux : List Char → List Char → List (List Char)
  | acc, [] => [acc.reverse]
  | acc, c :: cs =>
    if c = ',' then acc.reverse :: pySplitAux [] cs else pySplitAux (c :: acc) cs

/-- Python `s.split(',')`. -/
def pySplit (s : String) : List String :=
  (pySplitAux [] s.data).map String.mk

/-- The behaviour of the external benchmark process for one invocation:
either it starts and runs for `duration` seconds before exiting with
`exitCode`, having produced `stdout` and `stderr`, or it fails to launch. -/
inductive ChildBehavior where
  | runs (duration : Nat) (exitCode : Nat) (stdout stderr : String)
  | failsToLaunch (msg : String)
deriving DecidableEq, Repr

/-- The value of a finished `subprocess.run` call
(`capture_output=True, text=True`). -/
structure CompletedProcess where
  stdout : String
  stderr : String
deriving DecidableEq, Repr

/-- The `Exception`-derived Python errors `subprocess.run` can raise here:
`CalledProcessError` (from `check=True`), `TimeoutExpired`, or a launch error
such as `FileNotFoundError`. -/
inductive PyExn where
  | calledProcessError (returncode : Nat) (stderr : String)
  | timeoutExpired (timeoutSec : Nat)
  | otherError (msg : String)
deriving DecidableEq, Repr

/-- Python `str(e)` for the modelled exceptions. -/
def strOfExn : PyExn → String
  | .calledProcessError c _ => "Command returned non-zero exit status " ++ toString c
  | .timeoutExpired t => "Command timed out after " ++ toString t ++ " seconds"
  | .otherError m => m

/-- `isinstance(e, subprocess.CalledProcessError)`: what the first `except`
clause of `run_benchmark` catches. -/
def isCalledProcessError : PyExn → Bool
  | .calledProcessError _ _ => true
  | _ => false

/-- `isinstance(e, Exception)`: what the second `except` clause catches.  All
modelled errors derive from `Exception` (claims about `run_benchmark` totality
are scoped to `Exception`-derived errors). -/
def isException : PyExn → Bool := fun _ => true

/-- `subprocess.run(cmd, check=True, capture_output=True, text=True,
timeout=timeoutSec)` as a function of the child's behaviour.  A process that
outlives the timeout is killed, so the timeout check precedes the exit-status
check; `check=True` turns a non-zero exit status into `CalledProcessError`
carrying the captured stderr. -/
def subprocessRun (timeoutSec : Nat) (b : ChildBehavior) :
    Except PyExn CompletedProcess :=
  match b with
  | .failsToLaunch msg => .error (.otherError msg)
  | .runs d code out err =>
    if timeoutSec < d then .error (.timeoutExpired timeoutSec)
    else if code ≠ 0 then .error (.calledProcessError code err)
    else .ok ⟨out, err⟩

/-- The command list built at the top of `run_benchmark`:
`[str(benchmark_bin), str(lambda_val), str(tau)]`. -/
def cmdOf (lambda_val tau : Nat) (benchmark_bin : String) : List String :=
  [benchmark_bin, toString lambda_val, toString tau]

/-- The diagnostic line printed by one of `run_benchmark`'s `except` clauses:
the first clause prints `Error running <cmd>:` and the stderr text, the second
prints `Unexpected error with <cmd>:` and `str(e)`. -/
inductive Diag where
  | errorRunning (cmd : List String) (stderr : String)
  | unexpectedErr (cmd : List String) (msg : String)
deriving DecidableEq, Repr

/-- The spec's failure-reason taxonomy. -/
inductive ReasonTag where
  | timeout
  | nonzeroExit
  | unexpectedError
deriving DecidableEq, Repr

/-- The reason tag a diagnostic form denotes: the `Error running` form is
produced exactly by the `CalledProcessError` handler, the `Unexpected error`
form by the generic handler. -/
def diagTag : Diag → ReasonTag
  | .errorRunning _ _ => .nonzeroExit
  | .unexpectedErr _ _ => .unexpectedError

/-- What one `run_benchmark` call produces: the returned value
(`result.stdout` or `None`) plus the diagnostic printed, if any. -/
structure RunResult where
  result : Option String
  diag : Option Diag
deriving DecidableEq, Repr

/-- `run_benchmark(lambda_val, tau, benchmark_bin)` given the child's
behaviour: run the process with a 3000-second timeout; on success return its
stdout; on `CalledProcessError` print the `Error running` diagnostic with the
captured stderr and return `None`; on any other exception print the
`Unexpected error` diagnostic with `str(e)` and return `None`. -/
def run_benchmark (lambda_val tau : Nat) (benchmark_bin : String)
    (b : ChildBehavior) : RunResult :=
  match subprocessRun 3000 b with
  | .ok res => ⟨some res.stdout, none⟩
  | .error (.calledProcessError _ err) =>
    ⟨none, some (.errorRunning (cmdOf lambda_val tau benchmark_bin) err)⟩
  | .error e =>
    ⟨none, some (.unexpectedErr (cmdOf lambda_val tau benchmark_bin) (strOfExn e))⟩

/-- `run_benchmark` at the exception level: the `try` body either returns or
raises; the handlers are tried in order (`CalledProcessError`, then
`Exception`); an error neither handler catches would propagate to the caller
as `Except.error`. -/
def run_benchmark_exc (lambda_val tau : Nat) (benchmark_bin : String)
    (b : ChildBehavior) : Except PyExn RunResult :=
  match subprocessRun 3000 b with
  | .ok res => .ok ⟨some res.stdout, none⟩
  | .error e =>
    if isCalledProcessError e then
      .ok ⟨none, some (.errorRunning (cmdOf lambda_val tau benchmark_bin)
        (match e with | .calledProcessError _ err => err | _ => ""))⟩
    else if isException e then
      .ok ⟨none, some (.unexpectedErr (cmdOf lambda_val tau benchmark_bin)
        (strOfExn e))⟩
    else
      .error e

/-- The `lambdas` list of `main`. -/
def lambdas : List Nat := [40]

/-- Python `range(a, b)` as a list. -/
def pyRange (a b : Nat) : List Nat :=
  (List.range (b - a)).map (fun i => a + i)

/-- The `taus` value of `main`: `range(10, 11)`. -/
def taus : List Nat := pyRange 10 11

/-- The header row written by `main` before any invocation starts. -/
def header : List String :=
  ["lambda", "tau", "t_open_1_8", "t_open_1_4", "t_open_1_2"]

/-- The nested loop of `main` that builds `param_combinations`: for each
element of the first dimension, iterate the whole second dimension (rightmost
dimension fastest), kept generic in the two dimension lists. -/
def gridGen {α β : Type} (ls : List α) (ts : List β) : List (α × β) :=
  ls.flatMap (fun l => ts.map (fun t => (l, t)))

/-- `param_combinations` of `main`. -/
def param_combinations : List (Nat × Nat) := gridGen lambdas taus

/-- The body of the collection loop for one future's returned value:
`if result: writer.writerow(result.strip().split(','))` — `None` and the empty
string are falsy and produce no row; otherwise the row is the comma-split of
the whitespace-stripped text. -/
def rowOf : Option String → Option (List String)
  | none => none
  | some s => if s = "" then none else some (pySplit (pyStrip s))

/-- The data rows written for a list of future values, in the order the loop
iterates the futures (submission order). -/
def collectRows (results : List (Option String)) : List (List String) :=
  results.filterMap rowOf

/-- One event of the collection loop: `resolve i` is the blocking
`future.result()` call returning for the future at submission position `i`;
`writeRow i row` is `writer.writerow(...)` for that position; `flush` is
`f.flush()`. -/
inductive Ev where
  | resolve (i : Nat)
  | writeRow (i : Nat) (row : List String)
  | flush
deriving DecidableEq, Repr

/-- The event trace of the collection loop over the future values `rs`,
starting at submission position `k`: for each position, first block on its
result, then, when the value is truthy, write its row and flush, then move to
the next position. -/
def loopTrace : Nat → List (Option String) → List Ev
  | _, [] => []
  | k, r :: rs =>
    Ev.resolve k ::
      ((match rowOf r with
        | some row => [Ev.writeRow k row, Ev.flush]
        | none => []) ++ loopTrace (k + 1) rs)

/-- The rows written along a trace, in trace order. -/
def rowsOf : List Ev → List (List String)
  | [] => []
  | Ev.writeRow _ row :: es => row :: rowsOf es
  | _ :: es => rowsOf es

/-- A future of the thread pool: the value `future.result()` returns, plus the
wall-clock time at which the underlying invocation completed.  The completion
time is data of the schedule, not of the value. -/
structure Fut where
  value : Option String
  doneAt : Nat
deriving DecidableEq, Repr

/-- The future values produced for a tuple list `ps` under behaviour
environment `env`: one `run_benchmark` task per tuple, in submission order
(the tuple list is fully built before this map dispatches the tasks). -/
def runSweepOn (benchmark_bin : String) (ps : List (Nat × Nat))
    (env : Nat × Nat → ChildBehavior) : List (Option String) :=
  ps.map (fun p => (run_benchmark p.1 p.2 benchmark_bin (env p)).result)

/-- The sweep of `main` under behaviour environment `env`: one
`run_benchmark` future value per parameter tuple, in submission order. -/
def runSweep (benchmark_bin : String) (env : Nat × Nat → ChildBehavior) :
    List (Option String) :=
  runSweepOn benchmark_bin param_combinations env

/-- A child behaviour that makes one invocation fail: it outlives the
3000-second timeout, or exits non-zero, or fails to launch. -/
def isFailureBehavior : ChildBehavior → Prop
  | .runs d c _ _ => 3000 < d ∨ c ≠ 0
  | .failsToLaunch _ => True

/-- The results file contents as rows of fields: the header row written first,
then the data rows in collection order. -/
def resultsFile (results : List (Option String)) : List (List String) :=
  header :: collectRows results

/-- A future value produces a row exactly when it is a non-empty string
(Python truthiness of `None` and `str`). -/
lemma rowOf_isSome_iff (r : Option String) :
    (rowOf r).isSome = true ↔ ∃ s, r = some s ∧ s ≠ "" := by
  cases r with
  | none => simp [rowOf]
  | some s => by_cases hs : s = "" <;> simp [rowOf, hs]

/-- The collection loop writes at most one row per future. -/
lemma collectRows_length_le (rs : List (Option String)) :
    (collectRows rs).length ≤ rs.length :=
  List.length_filterMap_le _ _

/-- The collection loop writes one row per future exactly when every future
value is a non-empty string. -/
lemma collectRows_length_eq_iff (rs : List (Option String)) :
    (collectRows rs).length = rs.length ↔ ∀ r ∈ rs, ∃ s, r = some s ∧ s ≠ "" := by
  induction rs with
  | nil => simp [collectRows]
  | cons r rs ih =>
    cases hrow : rowOf r with
    | none =>
      have hle := collectRows_length_le rs
      simp only [collectRows] at hle
      have hr : ¬ ∃ s, r = some s ∧ s ≠ "" := by
        rw [← rowOf_isSome_iff, hrow]; simp
      simp only [collectRows, List.filterMap_cons, hrow, List.length_cons]
      constructor
      · intro h; omega
      · intro hall; exact absurd (hall r (List.mem_cons_self r rs)) hr
    | some row =>
      have hr : ∃ s, r = some s ∧ s ≠ "" := by
        rw [← rowOf_isSome_iff, hrow]; rfl
      simp only [collectRows] at ih
      simp only [collectRows, List.filterMap_cons, hrow, List.length_cons]
      rw [List.forall_mem_cons]
      constructor
      · intro h
        exact ⟨hr, ih.mp (by omega)⟩
      · intro ⟨_, hall⟩
        have := ih.mpr hall
        omega

/-- An empty trace writes nothing; used to discharge impossible splits. -/
lemma loopTrace_nil (k : Nat) : loopTrace k [] = [] := rfl

/-- Blocking order of the collection loop: before any row for submission
position `j` is written, the loop has already resolved (blocked on) every
position from its starting point up to `j`. -/
lemma loopTrace_blocking :
    ∀ (rs : List (Option String)) (k : Nat) (t1 t2 : List Ev) (j : Nat)
      (row : List String),
      loopTrace k rs = t1 ++ Ev.writeRow j row :: t2 →
      k ≤ j ∧ ∀ i, k ≤ i → i ≤ j → Ev.resolve i ∈ t1 := by
  intro rs
  induction rs with
  | nil =>
    intro k t1 t2 j row h
    rw [loopTrace_nil] at h
    exact absurd h.symm (List.append_ne_nil_of_right_ne_nil _ (List.cons_ne_nil _ _))
  | cons r rs ih =>
    intro k t1 t2 j row h
    cases hrow : rowOf r with
    | none =>
      simp only [loopTrace, hrow, List.nil_append] at h
      cases t1 with
      | nil => simp at h
      | cons e t1 =>
        rw [List.cons_append] at h
        injection h with he h
        obtain ⟨hkj, hmem⟩ := ih (k + 1) t1 t2 j row h
        refine ⟨by omega, fun i hki hij => ?_⟩
        rcases Nat.eq_or_lt_of_le hki with heq | hlt
        · rw [← heq, he]; exact List.mem_cons_self _ _
        · exact List.mem_cons_of_mem _ (hmem i hlt hij)
    | some row0 =>
      simp only [loopTrace, hrow, List.cons_append, List.nil_append] at h
      cases t1 with
      | nil =>
        simp only [List.nil_append] at h
        simp at h
      | cons e t1 =>
        rw [List.cons_append] at h
        injection h with he h
        cases t1 with
        | nil =>
          simp only [List.nil_append] at h
          injection h with hw h
          injection hw with hjk hrow0
          refine ⟨by omega, fun i hki hij => ?_⟩
          have : i = k := by omega
          rw [this, he]
          exact List.mem_cons_self _ _
        | cons e2 t1 =>
          rw [List.cons_append] at h
          injection h with he2 h
          cases t1 with
          | nil =>
            simp only [List.nil_append] at h
            simp at h
          | cons e3 t1 =>
            rw [List.cons_append] at h
            injection h with he3 h
            obtain ⟨hkj, hmem⟩ := ih (k + 1) t1 t2 j row h
            refine ⟨by omega, fun i hki hij => ?_⟩
            rcases Nat.eq_or_lt_of_le hki with heq | hlt
            · rw [← heq, he]; exact List.mem_cons_self _ _
            · exact List.mem_cons_of_mem _ (List.mem_cons_of_mem _
                (List.mem_cons_of_mem _ (hmem i hlt hij)))

/-- Every row write in the collection loop is immediately followed by a
flush of the results file. -/
lemma loopTrace_flush :
    ∀ (rs : List (Option String)) (k : Nat) (t1 t2 : List Ev) (j : Nat)
      (row : List String),
      loopTrace k rs = t1 ++ Ev.writeRow j row :: t2 →
      ∃ t2x, t2 = Ev.flush :: t2x := by
  intro rs
  induction rs with
  | nil =>
    intro k t1 t2 j row h
    rw [loopTrace_nil] at h
    exact absurd h.symm (List.append_ne_nil_of_right_ne_nil _ (List.cons_ne_nil _ _))
  | cons r rs ih =>
    intro k t1 t2 j row h
    cases hrow : rowOf r with
    | none =>
      simp only [loopTrace, hrow, List.nil_append] at h
      cases t1 with
      | nil => simp at h
      | cons e t1 =>
        rw [List.cons_append] at h
        injection h with he h
        exact ih (k + 1) t1 t2 j row h
    | some row0 =>
      simp only [loopTrace, hrow, List.cons_append, List.nil_append] at h
      cases t1 with
      | nil =>
        simp only [List.nil_append] at h
        simp at h
      | cons e t1 =>
        rw [List.cons_append] at h
        injection h with he h
        cases t1 with
        | nil =>
          simp only [List.nil_append] at h
          injection h with hw h
          exact ⟨_, h.symm⟩
        | cons e2 t1 =>
          rw [List.cons_append] at h
          injection h with he2 h
          cases t1 with
          | nil =>
            simp only [List.nil_append] at h
            simp at h
          | cons e3 t1 =>
            rw [List.cons_append] at h
            injection h with he3 h
            exact ih (k + 1) t1 t2 j row h

/-- The loop resolves every submission position: no failure terminates the
iteration early. -/
lemma resolve_mem_loopTrace :
    ∀ (rs : List (Option String)) (k i : Nat), i < rs.length →
      Ev.resolve (k + i) ∈ loopTrace k rs := by
  intro rs
  induction rs with
  | nil => intro k i h; simp at h
  | cons r rs ih =>
    intro k i h
    cases i with
    | zero =>
      cases hrow : rowOf r <;> simp [loopTrace, hrow]
    | succ i =>
      have hmem := ih (k + 1) i (by simpa using Nat.lt_of_succ_lt_succ h)
      have heq : k + (i + 1) = (k + 1) + i := by omega
      rw [heq]
      cases hrow : rowOf r <;>
        simp only [loopTrace, hrow, List.nil_append, List.cons_append,
          List.mem_cons, List.mem_append] <;> tauto

/-- A future whose value produces a row contributes a write event for its own
submission position. -/
lemma writeRow_mem_loopTrace :
    ∀ (rs : List (Option String)) (k i : Nat) (r : Option String)
      (row : List String),
      rs[i]? = some r → rowOf r = some row →
      Ev.writeRow (k + i) row ∈ loopTrace k rs := by
  intro rs
  induction rs with
  | nil => intro k i r row h _; simp at h
  | cons r0 rs ih =>
    intro k i r row hget hrow
    cases i with
    | zero =>
      simp only [List.getElem?_cons_zero, Option.some_inj] at hget
      rw [← hget] at hrow
      simp [loopTrace, hrow]
    | succ i =>
      simp only [List.getElem?_cons_succ] at hget
      have hmem := ih (k + 1) i r row hget hrow
      have heq : k + (i + 1) = (k + 1) + i := by omega
      rw [heq]
      cases hrow0 : rowOf r0 <;>
        simp only [loopTrace, hrow0, List.nil_append, List.cons_append,
          List.mem_cons, List.mem_append] <;> tauto

/-- The rows written along the trace are exactly the rows the collection loop
computes from the future values, in submission order. -/
lemma rowsOf_loopTrace :
    ∀ (rs : List (Option String)) (k : Nat),
      rowsOf (loopTrace k rs) = collectRows rs := by
  intro rs
  induction rs with
  | nil => intro k; simp [loopTrace, rowsOf, collectRows]
  | cons r rs ih =>
    intro k
    cases hrow : rowOf r <;>
      simp [loopTrace, hrow, rowsOf, collectRows, List.filterMap_cons, ih]

/-- The two `except` clauses of `run_benchmark` together catch every modelled
error, in order, and produce exactly what the direct embedding returns. -/
lemma run_benchmark_exc_eq (lam tau : Nat) (bin : String) (b : ChildBehavior) :
    run_benchmark_exc lam tau bin b = Except.ok (run_benchmark lam tau bin b) := by
  cases b with
  | failsToLaunch m =>
    simp [run_benchmark_exc, run_benchmark, subprocessRun, isCalledProcessError,
      isException]
  | runs d c out err =>
    by_cases hd : 3000 < d <;> by_cases hc : c = 0 <;>
      simp [run_benchmark_exc, run_benchmark, subprocessRun, hd, hc,
        isCalledProcessError, isException]

/-- Stripping a whitespace-only string leaves the empty string. -/
lemma pyStrip_eq_empty_of_space (s : String) (h : ∀ c ∈ s.data, pyIsSpace c) :
    pyStrip s = "" := by
  unfold pyStrip
  have h1 : s.data.dropWhile pyIsSpace = [] :=
    List.dropWhile_eq_nil_iff.mpr (by simpa using h)
  rw [h1]
  decide

/-- Length of the generated grid: the product of the dimension lengths. -/
lemma gridGen_length {α β : Type} (ls : List α) (ts : List β) :
    (gridGen ls ts).length = ls.length * ts.length := by
  induction ls with
  | nil => simp [gridGen]
  | cons l ls ih =>
    simp only [gridGen, List.flatMap_cons, List.length_append, List.length_map,
      List.length_cons] at ih ⊢
    rw [ih]
    ring

/-- Position of each pair in the generated grid: the tuple built from the
`i`-th value of the first dimension and the `j`-th value of the second sits at
offset `i * ts.length + j`, so the rightmost dimension iterates fastest. -/
lemma gridGen_getElem {α β : Type} :
    ∀ (ls : List α) (ts : List β) (i j : Nat) (hi : i < ls.length)
      (hj : j < ts.length),
      (gridGen ls ts)[i * ts.length + j]? = some (ls[i], ts[j]) := by
  intro ls
  induction ls with
  | nil => intro ts i j hi hj; simp at hi
  | cons l ls ih =>
    intro ts i j hi hj
    cases i with
    | zero =>
      simp only [gridGen, List.flatMap_cons, Nat.zero_mul, Nat.zero_add]
      rw [List.getElem?_append_left (by simpa using hj)]
      simp [List.getElem?_map, List.getElem?_eq_getElem hj]
    | succ i =>
      have hi2 : i < ls.length := by simpa using Nat.lt_of_succ_lt_succ hi
      have hidx : (i + 1) * ts.length + j = ts.length + (i * ts.length + j) := by
        ring
      simp only [gridGen, List.flatMap_cons, hidx]
      rw [List.getElem?_append_right (by simp)]
      simp only [List.length_map, Nat.add_sub_cancel_left]
      have := ih ts i j hi2 hj
      simp only [gridGen] at this
      rw [this]
      simp [List.getElem_cons_succ]

example : pySplit "" = [""] := by decide
example : pySplit "a,,b" = ["a", "", "b"] := by decide
example : pyStrip " 1,2\n" = "1,2" := by decide
example : param_combinations = [(40, 10)] := by decide

/-- C1 counterexample: a child that exceeds the 3000-second timeout is caught
by the generic `except Exception` clause, so its diagnostic carries the
`unexpected-error` reason, which is not the distinct `timeout` tag the claim
requires. -/
theorem C1_counterexample :
    (run_benchmark 40 10 "bench" (ChildBehavior.runs 3001 0 "" "")).diag.map diagTag
      = some ReasonTag.unexpectedError ∧
    ReasonTag.unexpectedError ≠ ReasonTag.timeout := by
  constructor
  · rfl
  · decide

/-- C1 (amended): every invocation whose child exceeds the 3000-second
timeout yields a Failure — `run_benchmark` returns `None` — handled by the
generic exception branch and therefore reported with the `unexpected-error`
diagnostic (the timeout description appears only inside the message text, not
as a distinct tag), and the tuple contributes no row. -/
theorem C1_timeout (lam tau : Nat) (bin : String) (d c : Nat) (out err : String)
    (hd : 3000 < d) :
    (run_benchmark lam tau bin (.runs d c out err)).result = none ∧
    (run_benchmark lam tau bin (.runs d c out err)).diag =
      some (Diag.unexpectedErr (cmdOf lam tau bin)
        (strOfExn (PyExn.timeoutExpired 3000))) ∧
    (run_benchmark lam tau bin (.runs d c out err)).diag.map diagTag =
      some ReasonTag.unexpectedError ∧
    rowOf (run_benchmark lam tau bin (.runs d c out err)).result = none := by
  simp [run_benchmark, subprocessRun, hd, rowOf, diagTag]

/-- C1 witness: the amended statement at a concrete over-long invocation. -/
theorem C1_timeout_witness :
    (run_benchmark 1 2 "b" (.runs 3001 0 "x" "e")).result = none ∧
    (run_benchmark 1 2 "b" (.runs 3001 0 "x" "e")).diag =
      some (Diag.unexpectedErr (cmdOf 1 2 "b")
        (strOfExn (PyExn.timeoutExpired 3000))) ∧
    (run_benchmark 1 2 "b" (.runs 3001 0 "x" "e")).diag.map diagTag =
      some ReasonTag.unexpectedError ∧
    rowOf (run_benchmark 1 2 "b" (.runs 3001 0 "x" "e")).result = none :=
  C1_timeout 1 2 "b" 3001 0 "x" "e" (by decide)

/-- C2: for every list of futures (submitted in tuple order), the rows in the
trace of the collection loop are exactly the submission-order rows; before a
row for position `j` is written the loop has resolved every position `i ≤ j`;
and the trace depends only on the future values, not on the completion
times. -/
theorem C2_submission_order (fs : List Fut) :
    rowsOf (loopTrace 0 (fs.map Fut.value)) = collectRows (fs.map Fut.value) ∧
    (∀ t1 t2 j row, loopTrace 0 (fs.map Fut.value) = t1 ++ Ev.writeRow j row :: t2 →
      ∀ i, i ≤ j → Ev.resolve i ∈ t1) ∧
    (∀ gs : List Fut, fs.map Fut.value = gs.map Fut.value →
      loopTrace 0 (fs.map Fut.value) = loopTrace 0 (gs.map Fut.value)) := by
  refine ⟨rowsOf_loopTrace _ 0, ?_, ?_⟩
  · intro t1 t2 j row h i hij
    exact (loopTrace_blocking _ 0 t1 t2 j row h).2 i (Nat.zero_le i) hij
  · intro gs h
    rw [h]

/-- C2 witness: with two futures where the second completes first, the write
of row 1 is still preceded by resolving positions 0 and 1. -/
theorem C2_submission_order_witness :
    Ev.resolve 0 ∈ [Ev.resolve 0, Ev.writeRow 0 (pySplit (pyStrip "a,b")),
      Ev.flush, Ev.resolve 1] :=
  (C2_submission_order [⟨some "a,b", 100⟩, ⟨some "c", 5⟩]).2.1
    [Ev.resolve 0, Ev.writeRow 0 (pySplit (pyStrip "a,b")), Ev.flush, Ev.resolve 1]
    [Ev.flush] 1 (pySplit (pyStrip "c")) (by rfl) 0 (by decide)

/-- C3 counterexample: with one tuple whose invocation succeeds with empty
output, every outcome is a Success yet zero rows are written, so row count
equals tuple count is not equivalent to all invocations succeeding. -/
theorem C3_counterexample :
    ¬ (((collectRows [some ""]).length = [some ""].length) ↔
        ∀ r ∈ [some ""], ∃ s, r = some s) := fun h =>
  absurd (h.mpr (fun r hr => ⟨"", by simpa using hr⟩)) (by decide)

/-- C3 (amended): the number of rows written never exceeds the number of
submitted tuples, and equality holds exactly when every invocation succeeds
with a non-empty output string (an empty-output Success is dropped by the
truthiness guard). -/
theorem C3_row_count (rs : List (Option String)) :
    (collectRows rs).length ≤ rs.length ∧
    ((collectRows rs).length = rs.length ↔ ∀ r ∈ rs, ∃ s, r = some s ∧ s ≠ "") :=
  ⟨collectRows_length_le rs, collectRows_length_eq_iff rs⟩

/-- C3 witness: the amended row-count bound at a concrete mixed outcome
list. -/
theorem C3_row_count_witness :
    (collectRows [some "x", none]).length ≤ [some "x", none].length :=
  (C3_row_count [some "x", none]).1

/-- C4: the grid is the ordered Cartesian product — its length is the product
of the dimension cardinalities, the pair of the `i`-th first-dimension value
and `j`-th second-dimension value sits at offset `i * ts.length + j`
(rightmost dimension fastest), and the dispatched task list of the sweep has
one task per tuple of the fully built grid. -/
theorem C4_grid {α β : Type} (ls : List α) (ts : List β) (i j : Nat)
    (hi : i < ls.length) (hj : j < ts.length) :
    (gridGen ls ts).length = ls.length * ts.length ∧
    (gridGen ls ts)[i * ts.length + j]? = some (ls[i], ts[j]) ∧
    param_combinations = gridGen lambdas taus ∧
    (∀ bin env, (runSweep bin env).length = param_combinations.length) := by
  refine ⟨gridGen_length ls ts, gridGen_getElem ls ts i j hi hj, rfl, ?_⟩
  intro bin env
  simp [runSweep, runSweepOn]

/-- C4 witness: the grid over two concrete dimensions, at position
`1 * 2 + 0`. -/
theorem C4_grid_witness :
    (gridGen [1, 2] [10, 20]).length = 2 * 2 ∧
    (gridGen [1, 2] [10, 20])[1 * 2 + 0]? = some (2, 10) ∧
    param_combinations = gridGen lambdas taus ∧
    (∀ bin env, (runSweep bin env).length = param_combinations.length) := by
  have h := C4_grid [1, 2] [10, 20] 1 0 (by decide) (by decide)
  simpa using h

/-- C5: with the compiled-in dimensions `lambdas = [40]` and
`taus = range(10, 11)`, exactly the tuple `(40, 10)` is generated, and a stub
executable printing `40,10,1.1,2.2,3.3` and exiting 0 produces a results file
with the fixed header row followed by exactly that one data row. -/
theorem C5_concrete_scenario :
    param_combinations = [(40, 10)] ∧
    resultsFile (runSweep "./build/my_app"
        (fun _ => ChildBehavior.runs 1 0 "40,10,1.1,2.2,3.3\n" "")) =
      [["lambda", "tau", "t_open_1_8", "t_open_1_4", "t_open_1_2"],
       ["40", "10", "1.1", "2.2", "3.3"]] := by
  constructor
  · rfl
  · rfl

/-- C6: every invocation whose child finishes within the timeout with a
non-zero exit status yields Failure — `run_benchmark` returns `None` — with
the `nonzero-exit` reason; the diagnostic carries the captured stderr, and the
tuple contributes no row. -/
theorem C6_nonzero_exit (lam tau d c : Nat) (bin out err : String)
    (hd : d ≤ 3000) (hc : c ≠ 0) :
    (run_benchmark lam tau bin (.runs d c out err)).result = none ∧
    (run_benchmark lam tau bin (.runs d c out err)).diag =
      some (Diag.errorRunning (cmdOf lam tau bin) err) ∧
    (run_benchmark lam tau bin (.runs d c out err)).diag.map diagTag =
      some ReasonTag.nonzeroExit ∧
    rowOf (run_benchmark lam tau bin (.runs d c out err)).result = none := by
  have hnd : ¬ 3000 < d := by omega
  simp [run_benchmark, subprocessRun, hnd, hc, rowOf, diagTag]

/-- C6 witness: a concrete invocation exiting with status 1. -/
theorem C6_nonzero_exit_witness :
    (run_benchmark 40 10 "b" (.runs 5 1 "out" "boom")).result = none ∧
    (run_benchmark 40 10 "b" (.runs 5 1 "out" "boom")).diag =
      some (Diag.errorRunning (cmdOf 40 10 "b") "boom") ∧
    (run_benchmark 40 10 "b" (.runs 5 1 "out" "boom")).diag.map diagTag =
      some ReasonTag.nonzeroExit ∧
    rowOf (run_benchmark 40 10 "b" (.runs 5 1 "out" "boom")).result = none :=
  C6_nonzero_exit 40 10 5 1 "b" "out" "boom" (by decide) (by decide)

/-- Modelled from the spec, for comparison only: the Result Sink field
transformation as claim C7 words it — strip only the trailing newline from
the raw captured text, then split the remaining line on commas.  The code
instead strips all leading and trailing whitespace (`result.strip()`). -/
def specSinkFields (s : String) : List String :=
  pySplit (if s.data.getLast? = some '\n' then String.mk s.data.dropLast else s)

/-- C7 counterexample: on the raw text of a line with a leading space, the
row the code writes differs from the row obtained by stripping only the
trailing newline — `strip()` also removes the leading space. -/
theorem C7_counterexample :
    rowOf (some " 1,2\n") ≠ some (specSinkFields " 1,2\n") := by decide

/-- C7 (amended): for every truthy Success the sink writes exactly one row,
obtained by stripping leading and trailing whitespace (Python `strip`, not
only the trailing newline) from the raw text and splitting on commas; the raw
standard output of a clean run is captured verbatim; and every row write is
immediately followed by a flush of the file. -/
theorem C7_row_transform (rs : List (Option String)) :
    (∀ s, s ≠ "" → rowOf (some s) = some (pySplit (pyStrip s))) ∧
    (∀ d out err lam tau bin, d ≤ 3000 →
      (run_benchmark lam tau bin (.runs d 0 out err)).result = some out) ∧
    (∀ t1 t2 j row, loopTrace 0 rs = t1 ++ Ev.writeRow j row :: t2 →
      ∃ t2x, t2 = Ev.flush :: t2x) := by
  refine ⟨?_, ?_, ?_⟩
  · intro s hs
    simp [rowOf, hs]
  · intro d out err lam tau bin hd
    have hnd : ¬ 3000 < d := by omega
    simp [run_benchmark, subprocessRun, hnd]
  · intro t1 t2 j row h
    exact loopTrace_flush _ 0 t1 t2 j row h

/-- C7 witness: a concrete successful future value whose row write is
followed by a flush. -/
theorem C7_row_transform_witness :
    ∃ t2x, [Ev.flush] = Ev.flush :: t2x :=
  (C7_row_transform [some "a,b\n"]).2.2 [Ev.resolve 0] [Ev.flush] 0
    (pySplit (pyStrip "a,b\n")) (by rfl)

/-- C8: failures never escape or end the sweep — for every tuple list and
behaviour environment, each task resolves to a value (no exception reaches
the coordinator), the collection loop resolves every submission position, and
every tuple whose invocation succeeded with non-empty output still has its
row written, whatever behaviours (including failures) the siblings have. -/
theorem C8_failure_isolation (bin : String) (ps : List (Nat × Nat))
    (env : Nat × Nat → ChildBehavior) :
    (∀ p ∈ ps, ∃ r, run_benchmark_exc p.1 p.2 bin (env p) = Except.ok r) ∧
    (∀ i, i < ps.length → Ev.resolve i ∈ loopTrace 0 (runSweepOn bin ps env)) ∧
    (∀ j (hj : j < ps.length) s, s ≠ "" →
      (run_benchmark (ps[j]).1 (ps[j]).2 bin (env (ps[j]))).result = some s →
      Ev.writeRow j (pySplit (pyStrip s)) ∈ loopTrace 0 (runSweepOn bin ps env)) := by
  refine ⟨?_, ?_, ?_⟩
  · intro p _
    exact ⟨_, run_benchmark_exc_eq p.1 p.2 bin (env p)⟩
  · intro i hi
    have := resolve_mem_loopTrace (runSweepOn bin ps env) 0 i
      (by simpa [runSweepOn] using hi)
    simpa using this
  · intro j hj s hs hres
    have hget : (runSweepOn bin ps env)[j]? =
        some (run_benchmark (ps[j]).1 (ps[j]).2 bin (env (ps[j]))).result := by
      simp [runSweepOn, List.getElem?_map, List.getElem?_eq_getElem hj]
    have hrow : rowOf (run_benchmark (ps[j]).1 (ps[j]).2 bin (env (ps[j]))).result =
        some (pySplit (pyStrip s)) := by
      rw [hres]
      simp [rowOf, hs]
    have := writeRow_mem_loopTrace (runSweepOn bin ps env) 0 j _ _ hget hrow
    simpa using this

/-- C8 witness: with two tuples where the first invocation fails to launch
and the second succeeds, the second tuple's row is still written. -/
theorem C8_failure_isolation_witness :
    Ev.writeRow 1 (pySplit (pyStrip "1,2\n")) ∈ loopTrace 0 (runSweepOn "b"
      [(1, 1), (2, 2)] (fun p => if p.1 = 1 then ChildBehavior.failsToLaunch "no"
        else ChildBehavior.runs 1 0 "1,2\n" "")) :=
  (C8_failure_isolation "b" [(1, 1), (2, 2)]
      (fun p => if p.1 = 1 then ChildBehavior.failsToLaunch "no"
        else ChildBehavior.runs 1 0 "1,2\n" "")).2.2
    1 (by decide) "1,2\n" (by decide) (by decide)

/-- C9: `run_benchmark` is total over the modelled `Exception`-derived
errors — at the exception level it always returns (`Except.ok`) the value the
direct embedding computes (the captured stdout or `None`), so no exception
propagates to the coordinator's result collection. -/
theorem C9_runner_total (lam tau : Nat) (bin : String) (b : ChildBehavior) :
    run_benchmark_exc lam tau bin b = Except.ok (run_benchmark lam tau bin b) :=
  run_benchmark_exc_eq lam tau bin b

/-- C10: an invocation that exits 0 within the timeout but prints nothing
returns Success with the empty string, which the truthiness guard drops — no
row is written — while any non-empty whitespace-only output (such as a single
newline) passes the guard and is written as a row with one empty field. -/
theorem C10_truthiness_guard (lam tau d : Nat) (bin err : String)
    (hd : d ≤ 3000) :
    (run_benchmark lam tau bin (.runs d 0 "" err)).result = some "" ∧
    rowOf (run_benchmark lam tau bin (.runs d 0 "" err)).result = none ∧
    (∀ s, s ≠ "" → (∀ c ∈ s.data, pyIsSpace c) → rowOf (some s) = some [""]) := by
  have hnd : ¬ 3000 < d := by omega
  refine ⟨?_, ?_, ?_⟩
  · simp [run_benchmark, subprocessRun, hnd]
  · simp [run_benchmark, subprocessRun, hnd, rowOf]
  · intro s hs hspace
    simp [rowOf, hs, pyStrip_eq_empty_of_space s hspace]
    decide

/-- C10 witness: a concrete empty-output success writes no row, and a
single-newline success writes the one-empty-field row. -/
theorem C10_truthiness_guard_witness :
    (run_benchmark 40 10 "b" (.runs 1 0 "" "")).result = some "" ∧
    rowOf (run_benchmark 40 10 "b" (.runs 1 0 "" "")).result = none ∧
    rowOf (some "\n") = some [""] := by
  have h := C10_truthiness_guard 40 10 1 "b" "" (by decide)
  exact ⟨h.1, h.2.1, h.2.2 "\n" (by decide) (by decide)⟩
